import Mathlib

/-!
Verification of the ERC-7908 sample treasury system (assets/erc-7908/stms.py).

The Python source orchestrates three external collaborators that the spec
treats as black boxes: SHA-256 / HMAC-SHA512, secp256k1 curve arithmetic,
and the Ethereum address encoding (eth_account).  Those primitives are
abstracted into a `Prims` structure; everything the source itself computes
(path hashing, BIP32 child derivation structure, extended-key layout,
orchestration) is embedded concretely.  Machine bytes are `Nat` values with
explicit `% 256` where the byte width matters; fallible code returns
`Except String`.
-/

/-- Abstract cryptographic collaborators.  `sha256s` is SHA-256 composed with
UTF-8 encoding of a Python `str` (hashlib.sha256(s.encode()).digest());
`hmacSHA512 key data` is HMAC-SHA512; `point` maps a 32-byte private scalar
to the 33-byte compressed secp256k1 public key; `pointAddMul il K` is the
public child-key point computation point(il)*G + K used by CKDpub;
`hash160` is RIPEMD160 after SHA-256 (fingerprints); `fromKeyAddr` is
eth_account Account.from_key(..).address on the 32 raw private-key bytes
(Account.from_key accepts the same key as raw bytes or as its hex string
and yields the same address, so both call sites in the source are modelled
through the byte form). -/
structure Prims where
  sha256s : String → List Nat
  hmacSHA512 : List Nat → List Nat → List Nat
  point : List Nat → List Nat
  pointAddMul : List Nat → List Nat → List Nat
  hash160 : List Nat → List Nat
  fromKeyAddr : List Nat → String

/-- Order of the secp256k1 base point (CURVE_ORDER in bip32utils). -/
def secp256k1Order : Nat :=
  0xFFFFFFFFFFFFFFFFFFFFFFFFFFFFFFFEBAAEDCE6AF48A03BBFD25E8CD0364141

/-- Big-endian interpretation of a byte list (int.from_bytes(-, 'big')). -/
def beNat (l : List Nat) : Nat := l.foldl (fun a b => a * 256 + b) 0

/-- Big-endian 4-byte encoding of a 32-bit index (struct.pack of a u32). -/
def be32 (i : Nat) : List Nat :=
  [i / 2 ^ 24 % 256, i / 2 ^ 16 % 256, i / 2 ^ 8 % 256, i % 256]

/-- Big-endian 32-byte encoding of a scalar (int_to_string with padding). -/
def i2b32 (n : Nat) : List Nat :=
  (List.range 32).map (fun j => n / 256 ^ (31 - j) % 256)

/-- The lowercase hexadecimal alphabet used by Python bytes.hex(). -/
def hexTable : List Char := "0123456789abcdef".data

/-- Lowercase hex digit of a nibble. -/
def hexDigit (n : Nat) : Char := hexTable.getD n 'x'

/-- Characters of the lowercase hex encoding of a byte list.  Python bytes
satisfy b < 256, where the `% 16` on the high nibble is the identity. -/
def hexChars : List Nat → List Char
  | [] => []
  | b :: rest => hexDigit (b / 16 % 16) :: hexDigit (b % 16) :: hexChars rest

/-- Python bytes.hex(): lowercase hex string of a byte list. -/
def hexBytes (l : List Nat) : String := String.mk (hexChars l)

/-- ASCII bytes of a string literal (used only for the b"Bitcoin seed" key). -/
def strBytes (s : String) : List Nat := s.data.map Char.toNat

/-- The apostrophe character U+0027 used in derivation-path strings. -/
def tick : String := String.singleton (Char.ofNat 39)

/-- Modelled from the spec: the ExtendedKey value of section 3 as realized by
the external bip32utils BIP32Key object.  `secret` is the 32-byte private
scalar (empty for public-only keys), `pubkey` the 33-byte compressed public
point, `chain` the 32-byte chain code; `isPublic` is the bip32utils
`public` flag (true means public-only: no private half). -/
structure BIP32Key where
  secret : List Nat
  pubkey : List Nat
  chain : List Nat
  depth : Nat
  childIndex : Nat
  parentFpr : List Nat
  isPublic : Bool
deriving DecidableEq

/-- Modelled from the spec: the payload of the portable extended-key text
encoding (section 4.3): version (here the private/public bit it encodes),
depth, parent fingerprint, child number, chain code and 33 bytes of key
data.  The Base58Check text layer is the external codec and is not
re-modelled; this record is the decoded payload it transports. -/
structure SerializedXKey where
  isPrivate : Bool
  depth : Nat
  fpr : List Nat
  childNumber : Nat
  chain : List Nat
  keyData : List Nat
deriving DecidableEq

/-- Modelled from the spec: derive_master (section 4.2) as bip32utils
BIP32Key.fromEntropy: I = HMAC-SHA512("Bitcoin seed", seed); left half is
the master private scalar, right half the chain code; depth 0, zero parent
fingerprint, child number 0. -/
def BIP32Key.fromEntropy (P : Prims) (seed : List Nat) : BIP32Key :=
  let I := P.hmacSHA512 (strBytes "Bitcoin seed") seed
  let Il := I.take 32
  let Ir := I.drop 32
  { secret := Il, pubkey := P.point Il, chain := Ir,
    depth := 0, childIndex := 0, parentFpr := [0, 0, 0, 0], isPublic := false }

/-- Modelled from the spec: derive_child for a private parent (section 4.2).
Hardened index mixes 0x00 and the parent private key into the HMAC data,
non-hardened mixes the parent public key; the child scalar is
(IL + parent) mod curve order, failing with InvalidChildKey in the
negligible degenerate cases the spec lists. -/
def BIP32Key.CKDpriv (P : Prims) (k : BIP32Key) (i : Nat) :
    Except String BIP32Key :=
  let iBytes := be32 i
  let data := if 2 ^ 31 ≤ i then (0 :: k.secret) ++ iBytes
              else k.pubkey ++ iBytes
  let I := P.hmacSHA512 k.chain data
  let Il := I.take 32
  let Ir := I.drop 32
  if secp256k1Order ≤ beNat Il then Except.error "InvalidChildKey"
  else
    let childScalar := (beNat Il + beNat k.secret) % secp256k1Order
    if childScalar = 0 then Except.error "InvalidChildKey"
    else Except.ok
      { secret := i2b32 childScalar, pubkey := P.point (i2b32 childScalar),
        chain := Ir, depth := k.depth + 1, childIndex := i,
        parentFpr := (P.hash160 k.pubkey).take 4, isPublic := false }

/-- Modelled from the spec: derive_child for a public-only parent (section
4.2): hardened indices are rejected (HardenedDerivationUnavailable);
otherwise the child public point is point(IL)*G + parent point (the
negligible point-at-infinity failure lives inside the abstract curve
operation). -/
def BIP32Key.CKDpub (P : Prims) (k : BIP32Key) (i : Nat) :
    Except String BIP32Key :=
  if 2 ^ 31 ≤ i then Except.error "HardenedDerivationUnavailable"
  else
    let I := P.hmacSHA512 k.chain (k.pubkey ++ be32 i)
    let Il := I.take 32
    let Ir := I.drop 32
    Except.ok
      { secret := [], pubkey := P.pointAddMul Il k.pubkey,
        chain := Ir, depth := k.depth + 1, childIndex := i,
        parentFpr := (P.hash160 k.pubkey).take 4, isPublic := true }

/-- Modelled from the spec: bip32utils BIP32Key.ChildKey dispatches to the
private derivation when the key has a private half, else to the public
derivation. -/
def BIP32Key.ChildKey (P : Prims) (k : BIP32Key) (i : Nat) :
    Except String BIP32Key :=
  if k.isPublic = false then k.CKDpriv P i else k.CKDpub P i

/-- Modelled from the spec: bip32utils BIP32Key.PrivateKey returns the raw
private scalar and raises on a public-only key (the spec, section 3: a
public ExtendedKey cannot recover private material by design). -/
def BIP32Key.PrivateKey (k : BIP32Key) : Except String (List Nat) :=
  if k.isPublic
  then Except.error "Publicly derived deterministic keys have no private half"
  else Except.ok k.secret

/-- Modelled from the spec: encode of section 4.3 as bip32utils
BIP32Key.ExtendedKey(private, encoded).  The bip32utils default for the
`private` argument is True, which is what every call site in the source
uses; requesting a private export from a public-only key raises; key data
is 0x00 followed by the private scalar for a private export, else the
compressed public key. -/
def BIP32Key.ExtendedKey (k : BIP32Key) (priv : Bool) :
    Except String SerializedXKey :=
  if k.isPublic && priv
  then Except.error "Cannot export an extended private key from a public-only deterministic key"
  else Except.ok
    { isPrivate := priv, depth := k.depth, fpr := k.parentFpr,
      childNumber := k.childIndex, chain := k.chain,
      keyData := if priv then 0 :: k.secret else k.pubkey }

/-- Modelled from the spec: decode of section 4.3 as bip32utils
BIP32Key.fromExtendedKey: a private payload drops the 0x00 prefix, keeps
the scalar and recomputes the public point; a public payload keeps the
point and is flagged public-only.  Structural decode failures
(MalformedExtendedKey, ChecksumMismatch) belong to the external Base58Check
layer below this payload. -/
def BIP32Key.fromExtendedKey (P : Prims) (x : SerializedXKey) : BIP32Key :=
  if x.isPrivate then
    let secret := x.keyData.drop 1
    { secret := secret, pubkey := P.point secret, chain := x.chain,
      depth := x.depth, childIndex := x.childNumber, parentFpr := x.fpr,
      isPublic := false }
  else
    { secret := [], pubkey := x.keyData, chain := x.chain,
      depth := x.depth, childIndex := x.childNumber, parentFpr := x.fpr,
      isPublic := true }

/-- Sequential effectful map over a list in the Except monad: the embedding
of a Python list comprehension whose body may raise (evaluation is
left-to-right and the first exception aborts the whole comprehension). -/
def mapE {α β : Type} (f : α → Except String β) :
    List α → Except String (List β)
  | [] => Except.ok []
  | a :: as =>
      Except.bind (f a) (fun b =>
        Except.map (fun bs => b :: bs) (mapE f as))

/-- The treasury engine state: the BIP-39 seed and the BIP32 root key, set
at construction (stms.py __init__) and never assigned afterwards. -/
structure TreasurySystem where
  seed : List Nat
  root_key : BIP32Key
deriving DecidableEq

/-- stms.py __init__ after the external mnemonic validation and seed
stretching: store the seed and the master key derived from it. -/
def TreasurySystem.init (P : Prims) (seed : List Nat) : TreasurySystem :=
  { seed := seed, root_key := BIP32Key.fromEntropy P seed }

/-- stms.py _hierarchical_hash, first step: entity_hash =
SHA256("ENTITY:" + entity). -/
def TreasurySystem.entity_hash (P : Prims) (entity : String) : List Nat :=
  P.sha256s ("ENTITY:" ++ entity)

/-- stms.py _hierarchical_hash, chained step: the department hash input
string "DEPT:" + entity_hash.hex() + ":" + department. -/
def TreasurySystem.dept_input (P : Prims) (entity department : String) :
    String :=
  "DEPT:" ++ hexBytes (TreasurySystem.entity_hash P entity) ++ ":" ++ department

/-- stms.py TreasurySystem._hierarchical_hash: the static hash-based mapping
from (entity, department) names to the two hardened derivation indices. -/
def TreasurySystem._hierarchical_hash (P : Prims) (entity department : String) :
    Nat × Nat :=
  let eh := TreasurySystem.entity_hash P entity
  let entity_index := beNat (eh.take 4) ||| 0x80000000
  let dept_hash := P.sha256s (TreasurySystem.dept_input P entity department)
  let dept_index := beNat (dept_hash.take 4) ||| 0x80000000
  (entity_index, dept_index)

/-- hash_path as the spec words it (section 4.1): entity_hash =
SHA256("ENTITY:" || entity); entity_index = be_u32(entity_hash[0:4]) |
0x80000000; dept_hash = SHA256("DEPT:" || hex(entity_hash) || ":" ||
department); dept_index = be_u32(dept_hash[0:4]) | 0x80000000.  Written
from the spec sentence, to be compared with the source definition. -/
def hash_path_spec (P : Prims) (entity department : String) : Nat × Nat :=
  let eh := P.sha256s ("ENTITY:" ++ entity)
  let entity_index := beNat (eh.take 4) ||| 0x80000000
  let dh := P.sha256s ("DEPT:" ++ hexBytes eh ++ ":" ++ department)
  let dept_index := beNat (dh.take 4) ||| 0x80000000
  (entity_index, dept_index)

/-- stms.py TreasurySystem._derive_key: walk ChildKey along the path from
the given key (the source starts the loop at self.root_key, passed here as
the loop state; the isinstance int check of the source is subsumed by the
Nat typing of indices). -/
def TreasurySystem._derive_key (P : Prims) (k : BIP32Key) :
    List Nat → Except String BIP32Key
  | [] => Except.ok k
  | i :: rest =>
      Except.bind (BIP32Key.ChildKey P k i) (fun c =>
        TreasurySystem._derive_key P c rest)

/-- The dict returned by stms.py generate_account. -/
structure Account where
  path : String
  private_key : String
  address : String
deriving DecidableEq

/-- stms.py TreasurySystem.generate_account: build the 5-segment BIP-44 path
with the two hash indices, derive, and return the path string, the hex
private key, and the address from the external address encoder (the source
default for account_idx is 0; calls here always pass it explicitly). -/
def TreasurySystem.generate_account (P : Prims) (s : TreasurySystem)
    (entity department : String) (account_idx : Nat) :
    Except String Account :=
  let e_idx := (TreasurySystem._hierarchical_hash P entity department).1
  let d_idx := (TreasurySystem._hierarchical_hash P entity department).2
  let derivation_path := [0x8000002C, 0x8000003C, e_idx, d_idx, account_idx]
  Except.map
    (fun key =>
      { path := "m/44" ++ tick ++ "/60" ++ tick ++ "/" ++ toString e_idx
          ++ tick ++ "/" ++ toString d_idx ++ tick ++ "/"
          ++ toString account_idx,
        private_key := hexBytes key.secret,
        address := P.fromKeyAddr key.secret })
    (TreasurySystem._derive_key P s.root_key derivation_path)

/-- stms.py TreasurySystem.get_audit_xpub: derive the 4-segment department
path and serialize with ExtendedKey() — whose bip32utils default argument
is private=True. -/
def TreasurySystem.get_audit_xpub (P : Prims) (s : TreasurySystem)
    (entity department : String) : Except String SerializedXKey :=
  let e_idx := (TreasurySystem._hierarchical_hash P entity department).1
  let d_idx := (TreasurySystem._hierarchical_hash P entity department).2
  let path := [0x8000002C, 0x8000003C, e_idx, d_idx]
  Except.bind (TreasurySystem._derive_key P s.root_key path)
    (fun k => k.ExtendedKey true)

/-- stms.py TreasurySystem.get_dept_xprv: textually the same body as
get_audit_xpub — the same 4-segment derivation and the same ExtendedKey()
call. -/
def TreasurySystem.get_dept_xprv (P : Prims) (s : TreasurySystem)
    (entity department : String) : Except String SerializedXKey :=
  let e_idx := (TreasurySystem._hierarchical_hash P entity department).1
  let d_idx := (TreasurySystem._hierarchical_hash P entity department).2
  let path := [0x8000002C, 0x8000003C, e_idx, d_idx]
  Except.bind (TreasurySystem._derive_key P s.root_key path)
    (fun k => k.ExtendedKey true)

/-- stms.py TreasurySystem.derive_addresses_from_xpub (static): decode the
extended key, then for i in range(count) take ChildKey(i).PrivateKey() and
address-encode it (the source default for count is 20; calls here always
pass it explicitly). -/
def TreasurySystem.derive_addresses_from_xpub (P : Prims)
    (xpub : SerializedXKey) (count : Nat) : Except String (List String) :=
  let audit_key := BIP32Key.fromExtendedKey P xpub
  mapE
    (fun i =>
      Except.bind (BIP32Key.ChildKey P audit_key i) (fun c =>
        Except.map (fun pk => P.fromKeyAddr pk) c.PrivateKey))
    (List.range count)

/-- State-passing form of generate_account: the Python method body contains
no assignment to self.seed or self.root_key, so the translation of every
statement threads the receiver state through unchanged. -/
def TreasurySystem.generate_accountS (P : Prims) (s : TreasurySystem)
    (entity department : String) (account_idx : Nat) :
    Except String Account × TreasurySystem :=
  (TreasurySystem.generate_account P s entity department account_idx, s)

/-- State-passing form of get_audit_xpub (no assignment to self fields). -/
def TreasurySystem.get_audit_xpubS (P : Prims) (s : TreasurySystem)
    (entity department : String) :
    Except String SerializedXKey × TreasurySystem :=
  (TreasurySystem.get_audit_xpub P s entity department, s)

/-- State-passing form of get_dept_xprv (no assignment to self fields). -/
def TreasurySystem.get_dept_xprvS (P : Prims) (s : TreasurySystem)
    (entity department : String) :
    Except String SerializedXKey × TreasurySystem :=
  (TreasurySystem.get_dept_xprv P s entity department, s)

/-- State-passing form of derive_addresses_from_xpub: a @staticmethod, so
it cannot even name the receiver; threaded here for the frame theorem. -/
def TreasurySystem.derive_addresses_from_xpubS (P : Prims)
    (s : TreasurySystem) (xpub : SerializedXKey) (count : Nat) :
    Except String (List String) × TreasurySystem :=
  (TreasurySystem.derive_addresses_from_xpub P xpub count, s)

/-- Concrete stand-in collaborators used to instantiate witnesses: total
functions of the right shapes (the abstract theorems hold for every
instantiation; witnesses only need one). -/
def dummyPrims : Prims :=
  { sha256s := fun s => List.replicate 31 0 ++ [s.length % 256],
    hmacSHA512 := fun _ _ =>
      (List.replicate 31 0 ++ [1]) ++ List.replicate 32 2,
    point := fun sk => 2 :: (sk ++ List.replicate 32 0).take 32,
    pointAddMul := fun il K => 3 :: (il ++ K).take 32,
    hash160 := fun _ => List.replicate 20 7,
    fromKeyAddr := fun b => "0x" ++ hexBytes b }

/-- A concrete engine state for witnesses. -/
def dummyTS : TreasurySystem := TreasurySystem.init dummyPrims (List.replicate 64 5)

/-- A concrete public-material extended-key payload (an actual xpub). -/
def pubXk1 : SerializedXKey :=
  { isPrivate := false, depth := 4, fpr := [1, 2, 3, 4], childNumber := 5,
    chain := List.replicate 32 7, keyData := 2 :: List.replicate 32 9 }

/-- A second concrete public-material payload (for a distinct claim). -/
def pubXk2 : SerializedXKey :=
  { isPrivate := false, depth := 2, fpr := [0, 0, 0, 0], childNumber := 0,
    chain := List.replicate 32 4, keyData := 3 :: List.replicate 32 8 }

/-- A concrete private-material extended-key payload. -/
def privXk1 : SerializedXKey :=
  { isPrivate := true, depth := 0, fpr := [0, 0, 0, 0], childNumber := 0,
    chain := List.replicate 32 2, keyData := 0 :: i2b32 1 }

/-- A second concrete private-material payload (for a distinct claim). -/
def privXk2 : SerializedXKey :=
  { isPrivate := true, depth := 1, fpr := [0, 0, 0, 0], childNumber := 0,
    chain := List.replicate 32 3, keyData := 0 :: i2b32 5 }

/-- A default account record (placeholder for Option.getD). -/
def accDefault : Account := { path := "", private_key := "", address := "" }

/-- A default payload record (placeholder for Option.getD). -/
def xkDefault : SerializedXKey :=
  { isPrivate := false, depth := 0, fpr := [], childNumber := 0,
    chain := [], keyData := [] }

/-- The concrete account record produced by the C9 witness evaluation. -/
def accW9 : Account :=
  (TreasurySystem.generate_account dummyPrims dummyTS "A" "B" 0).toOption.getD
    accDefault

/-- The concrete account record produced by the C2 witness evaluation. -/
def accW2 : Account :=
  (TreasurySystem.generate_account dummyPrims dummyTS "GroupA" "Finance"
    0).toOption.getD accDefault

/-- The concrete exported payload of the C2 witness evaluation. -/
def xkW2 : SerializedXKey :=
  (TreasurySystem.get_audit_xpub dummyPrims dummyTS "GroupA"
    "Finance").toOption.getD xkDefault

/-- The concrete address list of the C2 witness evaluation. -/
def addrsW2 : List String :=
  (TreasurySystem.derive_addresses_from_xpub dummyPrims xkW2 1).toOption.getD []

/-- The concrete exported payload of the C1 witness evaluation. -/
def xkW1 : SerializedXKey :=
  (TreasurySystem.get_audit_xpub dummyPrims dummyTS "GroupA"
    "Finance").toOption.getD xkDefault

/-- The concrete address list of the C8 witness evaluation. -/
def addrsW8 : List String :=
  (TreasurySystem.derive_addresses_from_xpub dummyPrims privXk2 2).toOption.getD
    []

/-- The concrete account record of the C6 evaluation at the hardened index
2^31. -/
def accW6 : Account :=
  (TreasurySystem.generate_account dummyPrims dummyTS "GroupA" "Finance"
    (2 ^ 31)).toOption.getD accDefault

/-! Helper lemmas. -/

theorem ebind_ok_elim {α β : Type} {x : Except String α}
    {f : α → Except String β} {b : β}
    (h : Except.bind x f = Except.ok b) :
    ∃ a, x = Except.ok a ∧ f a = Except.ok b := by
  cases x with
  | error e => exact absurd h (by simp [Except.bind])
  | ok a => exact ⟨a, rfl, h⟩

theorem emap_ok_elim {α β : Type} {g : α → β} {x : Except String α} {b : β}
    (h : Except.map g x = Except.ok b) :
    ∃ a, x = Except.ok a ∧ b = g a := by
  cases x with
  | error e => exact absurd h (by simp [Except.map])
  | ok a =>
      refine ⟨a, rfl, ?_⟩
      have : Except.ok (ε := String) (g a) = Except.ok b := h
      exact (Except.ok.inj this).symm

/-- A successful child of a parent that is private (or a successful child at
a hardened index, which forces the parent private) carries a private half
whose public point is the curve point of its scalar. -/
theorem childKey_ok_good {P : Prims} {k c : BIP32Key} {i : Nat}
    (hcase : k.isPublic = false ∨ 2 ^ 31 ≤ i)
    (h : BIP32Key.ChildKey P k i = Except.ok c) :
    c.isPublic = false ∧ c.pubkey = P.point c.secret := by
  unfold BIP32Key.ChildKey at h
  cases hk : k.isPublic with
  | false =>
      rw [hk] at h
      simp only [BIP32Key.CKDpriv, reduceIte] at h
      repeat' split at h
      all_goals
        first
          | exact Except.noConfusion h
          | (have hc := Except.ok.inj h; subst hc; exact ⟨rfl, rfl⟩)
  | true =>
      rw [hk] at h
      have hhard : 2 ^ 31 ≤ i := by
        cases hcase with
        | inl hl => rw [hk] at hl; exact absurd hl (by simp)
        | inr hr => exact hr
      simp only [BIP32Key.CKDpub] at h
      rw [if_pos hhard] at h
      exact absurd h (by simp)

/-- A successful child of a private parent is private. -/
theorem childKey_ok_private {P : Prims} {k c : BIP32Key} {i : Nat}
    (hk : k.isPublic = false) (h : BIP32Key.ChildKey P k i = Except.ok c) :
    c.isPublic = false :=
  (childKey_ok_good (Or.inl hk) h).1

/-- Splitting a derivation walk at its last index. -/
theorem deriveKey_snoc (P : Prims) (k : BIP32Key) (xs : List Nat) (i : Nat) :
    TreasurySystem._derive_key P k (xs ++ [i]) =
      Except.bind (TreasurySystem._derive_key P k xs)
        (fun m => BIP32Key.ChildKey P m i) := by
  induction xs generalizing k with
  | nil =>
      simp only [List.nil_append, TreasurySystem._derive_key]
      cases h : BIP32Key.ChildKey P k i <;> simp [Except.bind, h]
  | cons j xs ih =>
      simp only [List.cons_append, TreasurySystem._derive_key]
      cases h : BIP32Key.ChildKey P k j <;> simp [Except.bind, h, ih]

/-- A successful mapE run maps the list elementwise: the output has the
input's length and the entry at each index is the successful image of the
input entry at that index. -/
theorem mapE_ok_elim {α β : Type} (f : α → Except String β) :
    ∀ (l : List α) (ys : List β), mapE f l = Except.ok ys →
      ys.length = l.length ∧
        ∀ j a, l.get? j = some a → ∃ b, f a = Except.ok b ∧ ys.get? j = some b := by
  intro l
  induction l with
  | nil =>
      intro ys h
      have : Except.ok (ε := String) ([] : List β) = Except.ok ys := h
      have hys := Except.ok.inj this
      subst hys
      exact ⟨rfl, by intro j a hj; simp [List.get?] at hj⟩
  | cons a as ih =>
      intro ys h
      simp only [mapE] at h
      obtain ⟨b, hb, hrest⟩ := ebind_ok_elim h
      obtain ⟨bs, hbs, hys⟩ := emap_ok_elim hrest
      obtain ⟨hlen, helem⟩ := ih bs hbs
      subst hys
      refine ⟨by simp [hlen], ?_⟩
      intro j x hj
      cases j with
      | zero =>
          simp only [List.get?] at hj
          have hx := Option.some.inj hj
          subst hx
          exact ⟨b, hb, rfl⟩
      | succ j =>
          simp only [List.get?] at hj ⊢
          exact helem j x hj

/-- Goodness (private with matching public point) is preserved along a
derivation walk. -/
theorem deriveKey_ok_good (P : Prims) :
    ∀ (path : List Nat) (k c : BIP32Key),
      k.isPublic = false ∧ k.pubkey = P.point k.secret →
      TreasurySystem._derive_key P k path = Except.ok c →
      c.isPublic = false ∧ c.pubkey = P.point c.secret := by
  intro path
  induction path with
  | nil =>
      intro k c hk h
      have : Except.ok (ε := String) k = Except.ok c := h
      have hc := Except.ok.inj this
      subst hc
      exact hk
  | cons i rest ih =>
      intro k c hk h
      simp only [TreasurySystem._derive_key] at h
      obtain ⟨c1, h1, h2⟩ := ebind_ok_elim h
      exact ih c1 c (childKey_ok_good (Or.inl hk.1) h1) h2

/-- A successful derivation walk whose first index is hardened ends in a
good private key, whatever the starting key was (a public-only start fails
at the hardened first step). -/
theorem deriveKey_hardhead_good (P : Prims) (k c : BIP32Key) (i : Nat)
    (rest : List Nat) (hh : 2 ^ 31 ≤ i)
    (h : TreasurySystem._derive_key P k (i :: rest) = Except.ok c) :
    c.isPublic = false ∧ c.pubkey = P.point c.secret := by
  simp only [TreasurySystem._derive_key] at h
  obtain ⟨c1, h1, h2⟩ := ebind_ok_elim h
  exact deriveKey_ok_good P rest c1 c (childKey_ok_good (Or.inr hh) h1) h2

theorem hexDigit_inj : ∀ a < 16, ∀ b < 16, hexDigit a = hexDigit b → a = b := by
  decide

theorem hexDigit_mem : ∀ n < 16, hexDigit n ∈ hexTable := by decide

theorem hexChars_mem (l : List Nat) : ∀ c ∈ hexChars l, c ∈ hexTable := by
  induction l with
  | nil => intro c hc; simp [hexChars] at hc
  | cons b rest ih =>
      intro c hc
      simp only [hexChars, List.mem_cons] at hc
      rcases hc with h1 | h2 | h3
      · exact h1 ▸ hexDigit_mem _ (Nat.mod_lt _ (by omega))
      · exact h2 ▸ hexDigit_mem _ (Nat.mod_lt _ (by omega))
      · exact ih c h3

/-- Lowercase hex encoding is injective on byte lists. -/
theorem hexChars_inj :
    ∀ l1 l2 : List Nat, (∀ b ∈ l1, b < 256) → (∀ b ∈ l2, b < 256) →
      hexChars l1 = hexChars l2 → l1 = l2 := by
  intro l1
  induction l1 with
  | nil =>
      intro l2 _ _ h
      cases l2 with
      | nil => rfl
      | cons b rest => exact List.noConfusion h
  | cons b1 r1 ih =>
      intro l2 hb1 hb2 h
      cases l2 with
      | nil => exact List.noConfusion h
      | cons b2 r2 =>
          simp only [hexChars, List.cons.injEq] at h
          obtain ⟨hhi, hlo, hrest⟩ := h
          have b1lt : b1 < 256 := hb1 b1 (by simp)
          have b2lt : b2 < 256 := hb2 b2 (by simp)
          have hhi' : b1 / 16 % 16 = b2 / 16 % 16 :=
            hexDigit_inj _ (Nat.mod_lt _ (by omega)) _ (Nat.mod_lt _ (by omega)) hhi
          have hlo' : b1 % 16 = b2 % 16 :=
            hexDigit_inj _ (Nat.mod_lt _ (by omega)) _ (Nat.mod_lt _ (by omega)) hlo
          have d1 : b1 / 16 < 16 := Nat.div_lt_of_lt_mul (by omega)
          have d2 : b2 / 16 < 16 := Nat.div_lt_of_lt_mul (by omega)
          rw [Nat.mod_eq_of_lt d1, Nat.mod_eq_of_lt d2] at hhi'
          have hb : b1 = b2 := by
            have e1 := Nat.div_add_mod b1 16
            have e2 := Nat.div_add_mod b2 16
            omega
          have hr : r1 = r2 :=
            ih r2 (fun b hb => hb1 b (by simp [hb]))
              (fun b hb => hb2 b (by simp [hb])) hrest
          rw [hb, hr]

/-! Claim theorems. -/

/-- C4: the source _hierarchical_hash computes exactly the spec formula
entity_index = be_u32(SHA256("ENTITY:"||entity)[0:4]) | 0x80000000 and
dept_index = be_u32(SHA256("DEPT:"||hex(entity_hash)||":"||department)[0:4])
| 0x80000000 (first conjunct: it coincides with hash_path_spec, the
definition written from the spec sentence); it is total over all string
inputs by its Nat-pair return type (no error value exists), and it is
deterministic: a second call with identical arguments yields the identical
result (second conjunct). -/
theorem c4_hierarchical_hash_meets_spec (P : Prims) (entity department : String) :
    TreasurySystem._hierarchical_hash P entity department =
      hash_path_spec P entity department ∧
    TreasurySystem._hierarchical_hash P entity department =
      TreasurySystem._hierarchical_hash P entity department :=
  ⟨rfl, rfl⟩

/-- C5: get_audit_xpub and get_dept_xprv return exactly the same value for
every engine state, entity and department: both derive the same 4-segment
path and serialize it with the same ExtendedKey() call. -/
theorem c5_audit_export_equals_private_export (P : Prims) (s : TreasurySystem)
    (entity department : String) :
    TreasurySystem.get_audit_xpub P s entity department =
      TreasurySystem.get_dept_xprv P s entity department :=
  rfl

/-- C10: no public operation mutates the engine state: each state-passing
operation returns the state unchanged (in particular seed and root_key are
unchanged), and a repeated call on the post-state returns the identical
result. -/
theorem c10_operations_preserve_state (P : Prims) (s : TreasurySystem)
    (entity department : String) (i : Nat) (xk : SerializedXKey) (n : Nat) :
    (TreasurySystem.generate_accountS P s entity department i).2 = s ∧
    (TreasurySystem.get_audit_xpubS P s entity department).2 = s ∧
    (TreasurySystem.get_dept_xprvS P s entity department).2 = s ∧
    (TreasurySystem.derive_addresses_from_xpubS P s xk n).2 = s ∧
    (TreasurySystem.generate_accountS P s entity department i).2.seed = s.seed ∧
    (TreasurySystem.generate_accountS P s entity department i).2.root_key =
      s.root_key ∧
    (TreasurySystem.generate_accountS P
        (TreasurySystem.generate_accountS P s entity department i).2
        entity department i).1 =
      (TreasurySystem.generate_accountS P s entity department i).1 :=
  ⟨rfl, rfl, rfl, rfl, rfl, rfl, rfl⟩

/-- C6: evaluation of the code at the failing input: generate_account with
account_idx = 2^31 (a hardened-range value) does not reject with
InvalidAccountIndex — it derives a key and returns an account whose path
carries the hardened index 2147483648 as the account segment. -/
theorem c6_hardened_account_index_not_rejected :
    ∃ acc, TreasurySystem.generate_account dummyPrims dummyTS "GroupA"
        "Finance" (2 ^ 31) = Except.ok acc ∧
      acc.path = "m/44" ++ tick ++ "/60" ++ tick ++ "/2147483648" ++ tick ++
        "/2147483648" ++ tick ++ "/2147483648" :=
  ⟨accW6, rfl, rfl⟩

/-- C3: evaluation of the code at the failing inputs: on an extended key
that decodes to public material, derive_addresses_from_xpub raises (the
publicly derived child has no private half) instead of computing addresses
through public-only derivation; and on an extended key that decodes to
private material it returns addresses instead of failing with
ExpectedPublicKey. -/
theorem c3_derive_addresses_error_handling_bug :
    TreasurySystem.derive_addresses_from_xpub dummyPrims pubXk1 1 =
      Except.error "Publicly derived deterministic keys have no private half" ∧
    ∃ l, TreasurySystem.derive_addresses_from_xpub dummyPrims privXk1 1 =
      Except.ok l :=
  ⟨rfl, ⟨_, rfl⟩⟩

/-- C7: when the full entity hashes of two entity names differ, the
department-hash input strings differ for every department name, even when
the truncated 4-byte entity indices coincide — the department layer depends
on the full entity hash, not merely on entity_index. -/
theorem c7_dept_input_depends_on_full_hash (P : Prims) (e1 e2 D : String)
    (hb1 : ∀ b ∈ TreasurySystem.entity_hash P e1, b < 256)
    (hb2 : ∀ b ∈ TreasurySystem.entity_hash P e2, b < 256)
    (hne : TreasurySystem.entity_hash P e1 ≠ TreasurySystem.entity_hash P e2) :
    TreasurySystem.dept_input P e1 D ≠ TreasurySystem.dept_input P e2 D := by
  intro h
  apply hne
  unfold TreasurySystem.dept_input at h
  have hd := congrArg String.data h
  simp only [String.data_append] at hd
  have h1 := List.append_cancel_right hd
  have h2 := List.append_cancel_right h1
  have h3 := List.append_cancel_left h2
  exact hexChars_inj _ _ hb1 hb2 h3

/-- C1: for every state, entity and department, whatever get_audit_xpub
returns successfully is a PRIVATE extended-key payload that embeds the
derived private scalar — the code never neuters and ExtendedKey() defaults
to the private serialization, contradicting the claim that the export
contains no private key material. -/
theorem c1_audit_export_is_private_payload (P : Prims) (s : TreasurySystem)
    (entity department : String) (xk : SerializedXKey)
    (h : TreasurySystem.get_audit_xpub P s entity department = Except.ok xk) :
    xk.isPrivate = true ∧
      ∃ k, TreasurySystem._derive_key P s.root_key
          [0x8000002C, 0x8000003C,
            (TreasurySystem._hierarchical_hash P entity department).1,
            (TreasurySystem._hierarchical_hash P entity department).2] =
          Except.ok k ∧
        xk.keyData = 0 :: k.secret := by
  simp only [TreasurySystem.get_audit_xpub] at h
  obtain ⟨k, hk, hek⟩ := ebind_ok_elim h
  unfold BIP32Key.ExtendedKey at hek
  split at hek
  · exact Except.noConfusion hek
  · have hx := Except.ok.inj hek
    subst hx
    exact ⟨rfl, k, hk, rfl⟩

/-- C9: whenever generate_account returns an account, its path is exactly
the string m/44'/60'/{entity_index}'/{dept_index}'/{account_idx} with the
two indices being exactly the projections of _hierarchical_hash printed in
decimal with the hardened bit included, and its private_key is the
lowercase hex encoding of the derived private scalar (every character of it
belongs to the lowercase hex alphabet). -/
theorem c9_generate_account_output_format (P : Prims) (s : TreasurySystem)
    (entity department : String) (account_idx : Nat) (acc : Account)
    (h : TreasurySystem.generate_account P s entity department account_idx =
      Except.ok acc) :
    acc.path = "m/44" ++ tick ++ "/60" ++ tick ++ "/" ++
        toString (TreasurySystem._hierarchical_hash P entity department).1 ++
        tick ++ "/" ++
        toString (TreasurySystem._hierarchical_hash P entity department).2 ++
        tick ++ "/" ++ toString account_idx ∧
      (∃ k, TreasurySystem._derive_key P s.root_key
          [0x8000002C, 0x8000003C,
            (TreasurySystem._hierarchical_hash P entity department).1,
            (TreasurySystem._hierarchical_hash P entity department).2,
            account_idx] = Except.ok k ∧
        acc.private_key = hexBytes k.secret) ∧
      ∀ c ∈ acc.private_key.data, c ∈ hexTable := by
  simp only [TreasurySystem.generate_account] at h
  obtain ⟨k, hk, hacc⟩ := emap_ok_elim h
  subst hacc
  exact ⟨rfl, ⟨k, hk, rfl⟩, fun c hc => hexChars_mem k.secret c hc⟩

/-- C2: for entity GroupA and department Finance, every account index i in
{0, 1} and every count N with i + 1 <= N: when generate_account, the
department export and the address enumeration all succeed, the address
returned by generate_account appears among the N addresses that
derive_addresses_from_xpub produces from the exported department extended
key. -/
theorem c2_audit_contains_generated_address (P : Prims) (s : TreasurySystem)
    (i N : Nat) (hi : i < 2) (hN : i + 1 ≤ N)
    (acc : Account) (xk : SerializedXKey) (addrs : List String)
    (hacc : TreasurySystem.generate_account P s "GroupA" "Finance" i =
      Except.ok acc)
    (hxk : TreasurySystem.get_audit_xpub P s "GroupA" "Finance" = Except.ok xk)
    (haddrs : TreasurySystem.derive_addresses_from_xpub P xk N =
      Except.ok addrs) :
    acc.address ∈ addrs := by
  simp only [TreasurySystem.generate_account] at hacc
  obtain ⟨k5, hk5, hacc⟩ := emap_ok_elim hacc
  subst hacc
  simp only [TreasurySystem.get_audit_xpub] at hxk
  obtain ⟨k4, hk4, hek⟩ := ebind_ok_elim hxk
  have hgood : k4.isPublic = false ∧ k4.pubkey = P.point k4.secret :=
    deriveKey_hardhead_good P s.root_key k4 0x8000002C _ (by norm_num) hk4
  unfold BIP32Key.ExtendedKey at hek
  rw [hgood.1] at hek
  simp only [Bool.false_and, Bool.false_eq_true, if_false, reduceIte] at hek
  have hx := Except.ok.inj hek
  subst hx
  have hdec : BIP32Key.fromExtendedKey P
      { isPrivate := true, depth := k4.depth, fpr := k4.parentFpr,
        childNumber := k4.childIndex, chain := k4.chain,
        keyData := 0 :: k4.secret } = k4 := by
    obtain ⟨sec, pub, ch, dep, idx, fpr, isp⟩ := k4
    simp only [BIP32Key.fromExtendedKey, List.drop_succ_cons, List.drop_zero,
      reduceIte]
    simp only at hgood
    rw [hgood.1.symm, hgood.2]
  have hchild : BIP32Key.ChildKey P k4 i = Except.ok k5 := by
    have hs := deriveKey_snoc P s.root_key
      [0x8000002C, 0x8000003C,
        (TreasurySystem._hierarchical_hash P "GroupA" "Finance").1,
        (TreasurySystem._hierarchical_hash P "GroupA" "Finance").2] i
    rw [hk4] at hs
    have hs' : TreasurySystem._derive_key P s.root_key
        [0x8000002C, 0x8000003C,
          (TreasurySystem._hierarchical_hash P "GroupA" "Finance").1,
          (TreasurySystem._hierarchical_hash P "GroupA" "Finance").2, i] =
        BIP32Key.ChildKey P k4 i := hs
    exact hs'.symm.trans hk5
  simp only [TreasurySystem.derive_addresses_from_xpub] at haddrs
  rw [hdec] at haddrs
  obtain ⟨hlen, helem⟩ := mapE_ok_elim _ _ _ haddrs
  have hrange : (List.range N).get? i = some i := by
    rw [List.get?_eq_getElem?]
    exact List.getElem?_range (by omega)
  obtain ⟨b, hb, haddri⟩ := helem i i hrange
  have hb' : Except.bind (BIP32Key.ChildKey P k4 i)
      (fun c => Except.map (fun pk => P.fromKeyAddr pk) c.PrivateKey) =
      Except.ok b := hb
  rw [hchild] at hb'
  have hk5priv : k5.isPublic = false :=
    (childKey_ok_good (Or.inl hgood.1) hchild).1
  have hb2 : Except.map (fun pk => P.fromKeyAddr pk) k5.PrivateKey =
      Except.ok b := hb'
  unfold BIP32Key.PrivateKey at hb2
  rw [hk5priv] at hb2
  simp only [Bool.false_eq_true, if_false, reduceIte] at hb2
  have hb3 : P.fromKeyAddr k5.secret = b := Except.ok.inj hb2
  have : (List.get? addrs i) = some (P.fromKeyAddr k5.secret) := by
    rw [haddri, hb3]
  exact List.get?_mem this

/-- C8 counterexample: at a concrete extended key that decodes successfully
but carries public material, derive_addresses_from_xpub with count 2 does
not return a list at all (it raises), refuting the claim for that input. -/
theorem c8_counterexample_public_material :
    ¬∃ addrs, TreasurySystem.derive_addresses_from_xpub dummyPrims pubXk2 2 =
      Except.ok addrs := by
  intro hE
  obtain ⟨addrs, h⟩ := hE
  have he : TreasurySystem.derive_addresses_from_xpub dummyPrims pubXk2 2 =
      Except.error "Publicly derived deterministic keys have no private half" :=
    rfl
  rw [he] at h
  exact Except.noConfusion h

/-- C8 amended: whenever derive_addresses_from_xpub returns a list (which it
does not for public-material keys and count >= 1), the list has exactly
count addresses in ascending child-index order — element i is the address
computed for child index i — and duplicates are never suppressed (the
length is exactly count regardless of content). -/
theorem c8_derive_addresses_exact_count_order (P : Prims) (xk : SerializedXKey)
    (n : Nat) (addrs : List String)
    (h : TreasurySystem.derive_addresses_from_xpub P xk n = Except.ok addrs) :
    addrs.length = n ∧
      ∀ i, i < n →
        ∃ c pk, BIP32Key.ChildKey P (BIP32Key.fromExtendedKey P xk) i =
            Except.ok c ∧
          c.PrivateKey = Except.ok pk ∧
          addrs.get? i = some (P.fromKeyAddr pk) := by
  simp only [TreasurySystem.derive_addresses_from_xpub] at h
  obtain ⟨hlen, helem⟩ := mapE_ok_elim _ _ _ h
  constructor
  · rw [hlen, List.length_range]
  · intro i hi
    have hrange : (List.range n).get? i = some i := by
      rw [List.get?_eq_getElem?]
      exact List.getElem?_range hi
    obtain ⟨b, hb, hbi⟩ := helem i i hrange
    have hb' : Except.bind
        (BIP32Key.ChildKey P (BIP32Key.fromExtendedKey P xk) i)
        (fun c => Except.map (fun pk => P.fromKeyAddr pk) c.PrivateKey) =
        Except.ok b := hb
    obtain ⟨c, hc, hmap⟩ := ebind_ok_elim hb'
    obtain ⟨pk, hpk, hbval⟩ := emap_ok_elim hmap
    exact ⟨c, pk, hc, hpk, by rw [hbi, hbval]⟩

/-- Witness for C1 at a concrete instantiation: the audit export for
(GroupA, Finance) succeeds and is a private payload embedding the derived
scalar. -/
theorem c1_witness :
    TreasurySystem.get_audit_xpub dummyPrims dummyTS "GroupA" "Finance" =
      Except.ok xkW1 ∧
    (xkW1.isPrivate = true ∧
      ∃ k, TreasurySystem._derive_key dummyPrims dummyTS.root_key
          [0x8000002C, 0x8000003C,
            (TreasurySystem._hierarchical_hash dummyPrims "GroupA" "Finance").1,
            (TreasurySystem._hierarchical_hash dummyPrims "GroupA"
              "Finance").2] = Except.ok k ∧
        xkW1.keyData = 0 :: k.secret) :=
  ⟨rfl, c1_audit_export_is_private_payload dummyPrims dummyTS "GroupA"
    "Finance" xkW1 rfl⟩

/-- Witness for C2 at a concrete instantiation: account index 0, count 1 —
all three operations succeed and the generated address is in the derived
list. -/
theorem c2_witness :
    0 < 2 ∧ 0 + 1 ≤ 1 ∧
    TreasurySystem.generate_account dummyPrims dummyTS "GroupA" "Finance" 0 =
      Except.ok accW2 ∧
    TreasurySystem.get_audit_xpub dummyPrims dummyTS "GroupA" "Finance" =
      Except.ok xkW2 ∧
    TreasurySystem.derive_addresses_from_xpub dummyPrims xkW2 1 =
      Except.ok addrsW2 ∧
    accW2.address ∈ addrsW2 :=
  ⟨by decide, by decide, rfl, rfl, rfl,
    c2_audit_contains_generated_address dummyPrims dummyTS 0 1 (by decide)
      (by decide) accW2 xkW2 addrsW2 rfl rfl rfl⟩

/-- Witness for C7 at a concrete instantiation whose two entity hashes even
share their first four bytes (equal truncated indices), yet differ as full
hashes: the department inputs differ. -/
theorem c7_witness :
    (∀ b ∈ TreasurySystem.entity_hash dummyPrims "A", b < 256) ∧
    (∀ b ∈ TreasurySystem.entity_hash dummyPrims "BC", b < 256) ∧
    TreasurySystem.entity_hash dummyPrims "A" ≠
      TreasurySystem.entity_hash dummyPrims "BC" ∧
    TreasurySystem.dept_input dummyPrims "A" "Finance" ≠
      TreasurySystem.dept_input dummyPrims "BC" "Finance" :=
  ⟨by decide, by decide, by decide,
    c7_dept_input_depends_on_full_hash dummyPrims "A" "BC" "Finance"
      (by decide) (by decide) (by decide)⟩

/-- Witness for the amended C8 at a concrete instantiation: a private
payload with count 2 succeeds and the conclusion holds for its list. -/
theorem c8_witness :
    TreasurySystem.derive_addresses_from_xpub dummyPrims privXk2 2 =
      Except.ok addrsW8 ∧
    (addrsW8.length = 2 ∧
      ∀ i, i < 2 →
        ∃ c pk, BIP32Key.ChildKey dummyPrims
            (BIP32Key.fromExtendedKey dummyPrims privXk2) i = Except.ok c ∧
          c.PrivateKey = Except.ok pk ∧
          addrsW8.get? i = some (dummyPrims.fromKeyAddr pk)) :=
  ⟨rfl, c8_derive_addresses_exact_count_order dummyPrims privXk2 2 addrsW8 rfl⟩

/-- Witness for C9 at a concrete instantiation. -/
theorem c9_witness :
    TreasurySystem.generate_account dummyPrims dummyTS "A" "B" 0 =
      Except.ok accW9 ∧
    (accW9.path = "m/44" ++ tick ++ "/60" ++ tick ++ "/" ++
        toString (TreasurySystem._hierarchical_hash dummyPrims "A" "B").1 ++
        tick ++ "/" ++
        toString (TreasurySystem._hierarchical_hash dummyPrims "A" "B").2 ++
        tick ++ "/" ++ toString 0 ∧
      (∃ k, TreasurySystem._derive_key dummyPrims dummyTS.root_key
          [0x8000002C, 0x8000003C,
            (TreasurySystem._hierarchical_hash dummyPrims "A" "B").1,
            (TreasurySystem._hierarchical_hash dummyPrims "A" "B").2, 0] =
          Except.ok k ∧
        accW9.private_key = hexBytes k.secret) ∧
      ∀ c ∈ accW9.private_key.data, c ∈ hexTable) :=
  ⟨rfl, c9_generate_account_output_format dummyPrims dummyTS "A" "B" 0 accW9
    rfl⟩
